import Mathlib

/-!
Verification development for the onion-routing core of the repository
(`src/lib/onion/*`): the layered-encryption engine (`crypto.js`), the two
circuit builders (`circuitBuilder.js` and the two-node variant), the node
registry variants (`nodeRegistry.js` and the registry embedded next to
`circuitMonitor.js`), the circuit monitor, and the circuit channel.

The JavaScript source is embedded shallowly:

* WebCrypto hybrid encryption is modelled symbolically: an RSA key pair is a
  natural-number identifier (public and private half share the identifier),
  AES-GCM ciphertexts are a free constructor recording the symmetric key, the
  IV and the protected plaintext, and randomness is threaded explicitly as a
  counter, matching the property that each `encryptLayer` call draws a fresh
  IV and a fresh symmetric key.
* JavaScript numbers appearing in capability records are modelled by `JNum`
  (`undef` for a missing field, `num q` for a finite value, `inf` for
  `Infinity`), with JavaScript truthiness and comparison semantics.
* Code that can throw (`Array(-1)`, property access on `undefined`) returns
  `Except JsErr`.
* Network awaits (peer-link opening, validation responses, `Math.random`)
  are threaded as explicit oracle parameters.
-/

namespace Onion

/-! ## Crypto engine (`crypto.js`, class `LayeredEncryption`) -/

/-- A byte buffer as seen by `LayeredEncryption`: either raw bytes or an
AES-GCM ciphertext, recorded symbolically with the symmetric key identifier,
the IV and the protected buffer. -/
inductive Buf where
  | bytes (data : List Nat)
  | aesCt (sym iv : Nat) (inner : Buf)
  deriving DecidableEq, Repr

/-- An RSA-OAEP-wrapped symmetric key: `(pk, sym)` stands for the encryption
of symmetric key `sym` under the public key with identifier `pk`.
(`crypto.js`, `encryptLayer`, the `this.crypto.encrypt(KEY_ALGORITHM, ...)`
step.) -/
structure WrappedKey where
  pk : Nat
  sym : Nat
  deriving DecidableEq, Repr

/-- Result record of `encryptLayer`: `{ encryptedData, encryptedKey, iv }`. -/
structure EncLayerResult where
  encryptedData : Buf
  encryptedKey : WrappedKey
  iv : Nat
  deriving DecidableEq, Repr

/-- Model of `LayeredEncryption.encryptLayer(data, publicKey)`
(`crypto.js` 60-95):
draws a fresh random IV, generates a fresh AES-GCM key, encrypts `data` under
it and wraps the symmetric key under `publicKey`.  The RNG is an explicit
counter: the call consumes two fresh values. -/
def encryptLayer (rng : Nat) (data : Buf) (publicKey : Nat) :
    EncLayerResult × Nat :=
  let iv := rng
  let symmetricKey := rng + 1
  (⟨Buf.aesCt symmetricKey iv data, ⟨publicKey, symmetricKey⟩, iv⟩, rng + 2)

/-- Model of `LayeredEncryption.decryptLayer(encryptedData, encryptedKey,
iv, privateKey)` (`crypto.js` 105-134): unwraps the symmetric key with the RSA
private key (fails if the wrap used a different key pair), then AES-GCM
decrypts (fails if the symmetric key or IV does not match the ciphertext —
the GCM tag check). -/
def decryptLayer (encryptedData : Buf) (encryptedKey : WrappedKey)
    (iv : Nat) (privateKey : Nat) : Option Buf :=
  if encryptedKey.pk = privateKey then
    match encryptedData with
    | Buf.aesCt sym i inner =>
        if sym = encryptedKey.sym ∧ i = iv then some inner else none
    | Buf.bytes _ => none
  else
    none

/-- Result record of `createOnion`: `{ data, keys, ivs }`. -/
structure OnionEnvelope where
  data : Buf
  keys : List WrappedKey
  ivs : List Nat
  deriving DecidableEq, Repr

/-- Model of `LayeredEncryption.createOnion(data, publicKeys)`
(`crypto.js` 142-163):
iterates from the last public key (exit) to the first (entry), each step
encrypting the previous ciphertext and prepending the wrapped key and IV, so
`keys[0]`/`ivs[0]` belong to the outermost (entry) layer. -/
def createOnion (rng : Nat) (data : Buf) (publicKeys : List Nat) :
    OnionEnvelope × Nat :=
  match publicKeys with
  | [] => (⟨data, [], []⟩, rng)
  | pk :: rest =>
      let (innerEnv, rng') := createOnion rng data rest
      let (layer, rng'') := encryptLayer rng' innerEnv.data pk
      (⟨layer.encryptedData, layer.encryptedKey :: innerEnv.keys,
        layer.iv :: innerEnv.ivs⟩, rng'')

/-- Model of `LayeredEncryption.peelOnionLayer(data, encryptedKey, iv,
privateKey)` (`crypto.js` 173-175): delegates to `decryptLayer`. -/
def peelOnionLayer (data : Buf) (encryptedKey : WrappedKey) (iv : Nat)
    (privateKey : Nat) : Option Buf :=
  decryptLayer data encryptedKey iv privateKey

/-- Peeling an envelope hop by hop: apply `peelOnionLayer` with the hop-0
wrapped key, IV and private key first, then continue inward.  Stops with
`none` if any layer fails or the lists are misaligned. -/
def peelSequence : Buf → List WrappedKey → List Nat → List Nat → Option Buf
  | data, [], [], [] => some data
  | data, k :: ks, iv :: ivs, sk :: sks =>
      match peelOnionLayer data k iv sk with
      | some inner => peelSequence inner ks ivs sks
      | none => none
  | _, _, _, _ => none

theorem createOnion_data_keys_ivs (rng : Nat) (data : Buf)
    (publicKeys : List Nat) :
    ((createOnion rng data publicKeys).1.keys.length = publicKeys.length) ∧
    ((createOnion rng data publicKeys).1.ivs.length = publicKeys.length) := by
  induction publicKeys generalizing rng with
  | nil => simp [createOnion]
  | cons pk rest ih =>
      simp [createOnion, encryptLayer, (ih rng).1, (ih rng).2]

/-- Peeling with the key pairs in hop order undoes `createOnion`. -/
theorem peelSequence_createOnion (rng : Nat) (data : Buf)
    (keyPairs : List Nat) :
    peelSequence (createOnion rng data keyPairs).1.data
      (createOnion rng data keyPairs).1.keys
      (createOnion rng data keyPairs).1.ivs keyPairs = some data := by
  induction keyPairs generalizing rng with
  | nil => simp [createOnion, peelSequence]
  | cons pk rest ih =>
      simp only [createOnion, encryptLayer, peelSequence, peelOnionLayer,
        decryptLayer]
      simp [ih rng]

/-- C1.  For every plaintext (the empty byte string included), every `n ≥ 1`
and every sequence of `n` matching RSA-OAEP key pairs, building an onion with
`createOnion` over the `n` public keys and then peeling one layer at a time
with `peelOnionLayer`, applying the private keys in order hop 0 (entry,
outermost) through hop `n-1` (exit, innermost) with the matching wrapped key
and IV at each step, returns exactly the original plaintext. -/
theorem onion_roundtrip (plaintext : List Nat) (keyPairs : List Nat)
    (rng : Nat) (hn : 1 ≤ keyPairs.length) :
    peelSequence (createOnion rng (Buf.bytes plaintext) keyPairs).1.data
      (createOnion rng (Buf.bytes plaintext) keyPairs).1.keys
      (createOnion rng (Buf.bytes plaintext) keyPairs).1.ivs
      keyPairs = some (Buf.bytes plaintext) :=
  peelSequence_createOnion rng (Buf.bytes plaintext) keyPairs

/-- Witness for C1: a three-hop onion over the byte string `[0xde, 0xad]`
peels back to the plaintext. -/
theorem onion_roundtrip_witness :
    1 ≤ ([5, 8, 13] : List Nat).length ∧
    peelSequence (createOnion 0 (Buf.bytes [0xde, 0xad]) [5, 8, 13]).1.data
      (createOnion 0 (Buf.bytes [0xde, 0xad]) [5, 8, 13]).1.keys
      (createOnion 0 (Buf.bytes [0xde, 0xad]) [5, 8, 13]).1.ivs
      [5, 8, 13] = some (Buf.bytes [0xde, 0xad]) :=
  ⟨by decide, onion_roundtrip [0xde, 0xad] [5, 8, 13] 0 (by decide)⟩

/-! ## JavaScript values appearing in capability records -/

/-- A JavaScript number field: missing (`undefined`), a finite value, or
`Infinity` (the latency produced by `measureLatency` on a 5 s ping
timeout). -/
inductive JNum where
  | undef
  | num (q : ℚ)
  | inf
  deriving DecidableEq, Repr

/-- JavaScript truthiness of a number field: `undefined` and `0` are falsy,
every other number (including `Infinity`) is truthy. -/
def JNum.truthy : JNum → Bool
  | .undef => false
  | .num q => q ≠ 0
  | .inf => true

/-- JavaScript `a <= b` on number fields: any comparison with `undefined`
(`NaN`) is false; `Infinity <= Infinity` is true and `Infinity` exceeds
every finite value. -/
def JNum.jle : JNum → JNum → Bool
  | .num a, .num b => a ≤ b
  | .num _, .inf => true
  | .inf, .inf => true
  | _, _ => false

/-- JavaScript `a >= b` on number fields. -/
def JNum.jge (a b : JNum) : Bool := JNum.jle b a

/-- The `geolocation` member of a capabilities record; only its
`rttProfile` array (possibly absent) is ever read. -/
structure Geolocation where
  rttProfile : Option (List ℚ)
  deriving DecidableEq, Repr

/-- A capabilities record as consumed by `evaluateNodeCapabilities` in the
registry variant embedded in `circuitMonitor.js` (lines 687-706):
`{ maxBandwidth, latency, uptime, reliability, geolocation? }`. -/
structure Capabilities where
  maxBandwidth : JNum
  latency : JNum
  uptime : JNum
  reliability : JNum
  geolocation : Option Geolocation
  deriving DecidableEq, Repr

/-- Errors surfaced by the JavaScript runtime in the modelled code paths. -/
inductive JsErr where
  | typeError
  | rangeError
  | jsError (msg : String)
  deriving DecidableEq, Repr

/-! ## Registry admission checks
(registry variant embedded in `circuitMonitor.js`) -/

/-- Model of `isRTTProfileSimilar(profile1, profile2)` for two present
arrays
(`circuitMonitor.js` registry, lines 833-838): every entry of `profile1`
must be within 50 ms of the same-index entry of `profile2`; an out-of-range
index yields `NaN`, whose comparison is false. -/
def rttSimilar : List ℚ → List ℚ → Bool
  | [], _ => true
  | _ :: _, [] => false
  | a :: as, b :: bs => (|a - b| < 50 : Bool) && rttSimilar as bs

/-- Model of `isRTTProfileSimilar` on possibly-absent profiles: `undefined.every`
throws a `TypeError`; iterating a non-empty `profile1` against an
`undefined` `profile2` throws on the first index access; an empty
`profile1` never runs the callback and returns `true`. -/
def isRTTProfileSimilar (profile1 profile2 : Option (List ℚ)) :
    Except JsErr Bool :=
  match profile1 with
  | none => .error .typeError
  | some l1 =>
      match profile2 with
      | some l2 => .ok (rttSimilar l1 l2)
      | none => if l1.isEmpty then .ok true else .error .typeError

/-- The scan `existingProfiles.some(p => isRTTProfileSimilar(p, target))`
with JavaScript short-circuiting: the scan stops at the first `true` and a
thrown `TypeError` propagates. -/
def someSimilar (target : Option (List ℚ)) :
    List (Option (List ℚ)) → Except JsErr Bool
  | [] => .ok false
  | p :: rest => do
      let b ← isRTTProfileSimilar p target
      if b then .ok true else someSimilar target rest

/-- Model of `hasGeographicDiversity(node)` (`circuitMonitor.js` registry,
lines
813-824) applied to `{ capabilities }`: returns `false` when
`capabilities?.geolocation` is falsy, otherwise negates a similarity scan of
the node's `rttProfile` against the RTT profiles of every stored node that
carries a geolocation (`existingProfiles`). -/
def hasGeographicDiversity (existingProfiles : List (Option (List ℚ)))
    (geolocation : Option Geolocation) : Except JsErr Bool :=
  match geolocation with
  | none => .ok false
  | some g => do
      let s ← someSimilar g.rttProfile existingProfiles
      .ok (!s)

/-- Model of `meetsReliabilityThreshold` on a bare capabilities wrapper
(`circuitMonitor.js`
registry, lines 846-849): `capabilities?.reliability >= 0.8`. -/
def meetsReliabilityThreshold (c : Capabilities) : Bool :=
  c.reliability.jge (.num (8 / 10))

/-- Model of `evaluateNodeCapabilities(capabilities)` (`circuitMonitor.js`
registry,
lines 687-706): first the basic truthiness check on the four fields, then
the short-circuited conjunction of the four thresholds,
`hasGeographicDiversity({ capabilities })` and
`meetsReliabilityThreshold({ capabilities })`. -/
def evaluateNodeCapabilities (existingProfiles : List (Option (List ℚ)))
    (c : Capabilities) : Except JsErr Bool :=
  if !c.maxBandwidth.truthy || !c.latency.truthy || !c.uptime.truthy
      || !c.reliability.truthy then
    .ok false
  else if !(c.maxBandwidth.jge (.num (50 * 1024))) then .ok false
  else if !(c.latency.jle (.num 1000)) then .ok false
  else if !(c.uptime.jge (.num (5 * 60 * 1000))) then .ok false
  else if !(c.reliability.jge (.num (8 / 10))) then .ok false
  else do
    let geo ← hasGeographicDiversity existingProfiles c.geolocation
    if !geo then .ok false
    else .ok (meetsReliabilityThreshold c)

/-- Modelled from the spec: the admission judgment of §4.3, namely that a
peer is admissible iff all four thresholds hold —
`max_bandwidth ≥ 50 KiB/s ∧ latency ≤ 1000 ms ∧ uptime ≥ 5 min ∧
reliability ≥ 0.8`.  Stated separately so that the code's judgment can be
compared with the spec's. -/
def specAdmissible (c : Capabilities) : Bool :=
  c.maxBandwidth.jge (.num (50 * 1024)) && c.latency.jle (.num 1000)
    && c.uptime.jge (.num (5 * 60 * 1000))
    && c.reliability.jge (.num (8 / 10))

/-- A capabilities record meeting all four §4.3 thresholds but carrying no
`geolocation` member. -/
def capsNoGeo : Capabilities :=
  ⟨.num (50 * 1024), .num 100, .num (5 * 60 * 1000), .num 1, none⟩

/-- C4 counterexample.  A validation response whose capabilities meet all
four thresholds is nevertheless judged inadmissible (here because it has no
`geolocation`, so `hasGeographicDiversity` fails), refuting "admissible if
and only if all four thresholds hold". -/
theorem evaluateNodeCapabilities_not_iff_thresholds :
    specAdmissible capsNoGeo = true ∧
    evaluateNodeCapabilities [] capsNoGeo = .ok false := by
  constructor
  · norm_num [specAdmissible, capsNoGeo, JNum.jge, JNum.jle]
  · norm_num [evaluateNodeCapabilities, capsNoGeo, JNum.truthy, JNum.jge,
      JNum.jle, hasGeographicDiversity, Bind.bind, Except.bind]

/-- C4 (amended).  The admission judgment of `evaluateNodeCapabilities` is
sound for the four thresholds — a peer judged admissible satisfies all four
— and a peer whose measured latency is `Infinity` (ping timeout) is always
judged inadmissible (without error). -/
theorem evaluateNodeCapabilities_sound (existingProfiles :
    List (Option (List ℚ))) (c : Capabilities) :
    (evaluateNodeCapabilities existingProfiles c = .ok true →
      specAdmissible c = true) ∧
    (c.latency = .inf →
      evaluateNodeCapabilities existingProfiles c = .ok false) := by
  constructor
  · intro h
    unfold evaluateNodeCapabilities at h
    by_cases h1 : (!c.maxBandwidth.truthy || !c.latency.truthy
        || !c.uptime.truthy || !c.reliability.truthy) = true
    · simp [h1] at h
    · simp only [h1, if_false, Bool.not_eq_true] at h
      by_cases h2 : (c.maxBandwidth.jge (.num (50 * 1024))) = true
      · by_cases h3 : (c.latency.jle (.num 1000)) = true
        · by_cases h4 : (c.uptime.jge (.num (5 * 60 * 1000))) = true
          · by_cases h5 : (c.reliability.jge (.num (8 / 10))) = true
            · simp [specAdmissible, h2, h3, h4, h5]
            · simp [h2, h3, h4, h5] at h
          · simp [h2, h3, h4] at h
        · simp [h2, h3] at h
      · simp [h2] at h
  · intro hinf
    unfold evaluateNodeCapabilities
    by_cases h1 : (!c.maxBandwidth.truthy || !c.latency.truthy
        || !c.uptime.truthy || !c.reliability.truthy) = true
    · simp [h1]
    · have : c.latency.jle (.num 1000) = false := by
        rw [hinf]; rfl
      simp [h1, this]

/-- Witness for C4 (amended): at the concrete record `capsNoGeo` with its
latency replaced by `Infinity`, the judgment is `false`. -/
theorem evaluateNodeCapabilities_sound_witness :
    evaluateNodeCapabilities []
      { capsNoGeo with latency := .inf } = .ok false :=
  (evaluateNodeCapabilities_sound [] { capsNoGeo with latency := .inf }).2
    rfl

/-! ## Relay selection
(`getSuitableRelays`, registry variant embedded in `circuitMonitor.js`,
lines 1000-1107) -/

/-- The `NodeRole` values (`types.js` / `nodeRegistry.js`). -/
inductive Role where
  | entry
  | relay
  | exit
  deriving DecidableEq, Repr

/-- The `NodeStatus` values (`types.js` / `nodeRegistry.js`). -/
inductive Status where
  | available
  | busy
  | offline
  | waiting
  deriving DecidableEq, Repr

/-- The six continental regions of `determineRegion` plus `'UN'`. -/
inductive Region where
  | na
  | eu
  | asia
  | sa
  | af
  | oc
  | un
  deriving DecidableEq, Repr

/-- A `{latitude, longitude}` pair. -/
structure Loc where
  latitude : ℚ
  longitude : ℚ
  deriving DecidableEq, Repr

/-- A stored registry entry (`this.nodes` value, see
`handleNodeAnnouncement`); only the members read by the selection pipeline
are modelled. -/
structure RegEntry where
  role : Role
  status : Status
  capabilities : Option Capabilities
  deriving DecidableEq, Repr

/-- The registry's `this.nodes` map, as an association list with pairwise
distinct keys maintained by `Map`. -/
structure RegistryState where
  nodes : List (Nat × RegEntry)
  deriving DecidableEq, Repr

/-- Lookup `this.nodes.get(id)`. -/
def mapLookup (st : RegistryState) (id : Nat) : Option RegEntry :=
  (st.nodes.find? (fun p => p.1 = id)).map Prod.snd

/-- The record produced by `discoverNodes`'s final `.map`:
`{ nodeId, role, status, capabilities }` — note that the stored `location`
is not copied over. -/
structure DiscNode where
  nodeId : Nat
  role : Role
  status : Status
  capabilities : Option Capabilities
  deriving DecidableEq, Repr

/-- The members of an object that `determineRegion` inspects. -/
structure RegionQuery where
  location : Option Loc
  capabilities : Option Capabilities
  deriving DecidableEq, Repr

/-- A discovered-node record viewed by `determineRegion`: it carries no
`location` property. -/
def DiscNode.toRegionQuery (d : DiscNode) : RegionQuery :=
  ⟨none, d.capabilities⟩

/-- One continental bounding box of `determineRegion`. -/
structure Box where
  minLat : ℚ
  maxLat : ℚ
  minLng : ℚ
  maxLng : ℚ

/-- The six boxes of `determineRegion`, in object-literal order. -/
def regionBoxes : List (Region × Box) :=
  [(.na, ⟨15, 72, -168, -52⟩), (.eu, ⟨36, 71, -11, 40⟩),
   (.asia, ⟨-10, 77, 40, 180⟩), (.sa, ⟨-56, 15, -81, -34⟩),
   (.af, ⟨-35, 37, -18, 52⟩), (.oc, ⟨-47, -10, 110, 180⟩)]

/-- Point-in-box test of `determineRegion`'s loop body. -/
def inBox (loc : Loc) (b : Box) : Bool :=
  b.minLat ≤ loc.latitude && loc.latitude ≤ b.maxLat
    && b.minLng ≤ loc.longitude && loc.longitude ≤ b.maxLng

/-- First matching box, `'UN'`-free part of `determineRegion`. -/
def boxRegion (loc : Loc) : List (Region × Box) → Option Region
  | [] => none
  | (r, b) :: rest => if inBox loc b then some r else boxRegion loc rest

/-- The RTT fallback of `determineRegion`: `Math.min(...rtts)` is
`Infinity` on an empty array (`indexOf` then gives `-1`), and
`['NA','EU','AS'][minIndex] || 'UN'`. -/
def rttRegion (rtts : List ℚ) : Region :=
  match rtts with
  | [] => .un
  | r :: rest =>
      let minRTT := rest.foldl min r
      match (r :: rest).indexOf minRTT with
      | 0 => .na
      | 1 => .eu
      | 2 => .asia
      | _ => .un

/-- Model of `determineRegion(node)` (`circuitMonitor.js` registry, lines
1076-1107): point-in-box lookup when a truthy latitude and longitude are
present (falling through to the fallback when no box matches), otherwise
the RTT-profile fallback, otherwise `'UN'`. -/
def determineRegion (q : RegionQuery) : Region :=
  let fallback :=
    match q.capabilities with
    | some c =>
        match c.geolocation with
        | some g =>
            match g.rttProfile with
            | some rtts => rttRegion rtts
            | none => .un
        | none => .un
    | none => .un
  match q.location with
  | some loc =>
      if loc.latitude ≠ 0 ∧ loc.longitude ≠ 0 then
        match boxRegion loc regionBoxes with
        | some r => r
        | none => fallback
      else fallback
  | none => fallback

/-- Model of `calculateNodeScore(capabilities)` (`circuitMonitor.js`
registry, lines
1040-1057).  `Infinity` saturates each clamped sub-score at its cap; a
missing field would propagate `NaN` and is scored `0` here. -/
def calculateNodeScore (c : Capabilities) : ℚ :=
  let bandwidth : ℚ :=
    match c.maxBandwidth with
    | .num q => min (q / (1024 * 1024)) 1
    | .inf => 1
    | .undef => 0
  let latency : ℚ :=
    match c.latency with
    | .num q => max 0 (1 - q / 1000)
    | .inf => 0
    | .undef => 0
  let reliability : ℚ :=
    match c.reliability with
    | .num q => q
    | .inf => 1
    | .undef => 0
  let uptime : ℚ :=
    match c.uptime with
    | .num q => min (q / (24 * 60 * 60 * 1000)) 1
    | .inf => 1
    | .undef => 0
  3 / 10 * bandwidth + 2 / 10 * latency + 3 / 10 * reliability
    + 2 / 10 * uptime

/-- The comparison key of the `validated.sort` call: the score of the
stored capabilities of a discovered node. -/
def scoreOf (st : RegistryState) (n : DiscNode) : ℚ :=
  match (mapLookup st n.nodeId).bind (·.capabilities) with
  | some c => calculateNodeScore c
  | none => 0

/-- The `this.nodes` profile harvest inside `hasGeographicDiversity`:
`Array.from(this.nodes.values()).filter(n =>
n.capabilities?.geolocation).map(n => n.capabilities.geolocation
.rttProfile)`. -/
def storedProfiles (st : RegistryState) : List (Option (List ℚ)) :=
  st.nodes.filterMap (fun p =>
    match p.2.capabilities with
    | some c =>
        match c.geolocation with
        | some g => some g.rttProfile
        | none => none
    | none => none)

/-- JavaScript `Array.prototype.filter` with a predicate that can throw. -/
def filterE (p : α → Except JsErr Bool) : List α → Except JsErr (List α)
  | [] => .ok []
  | x :: xs => do
      let b ← p x
      let rest ← filterE p xs
      .ok (if b then x :: rest else rest)

/-- Model of `ensureGeographicDiversity(nodes)` (`circuitMonitor.js`
registry, lines
1059-1074): a stateful filter keeping at most two nodes per region, with
the per-region count threaded explicitly. -/
def ensureGeographicDiversity : List DiscNode → (Region → Nat) →
    List DiscNode
  | [], _ => []
  | n :: rest, counts =>
      let r := determineRegion n.toRegionQuery
      if counts r < 2 then
        n :: ensureGeographicDiversity rest
          (fun r2 => if r2 = r then counts r + 1 else counts r2)
      else
        ensureGeographicDiversity rest counts

/-- The role requirement list of `getSuitableRelays`:
`[ENTRY, ...Array(count - 2).fill(RELAY), EXIT]`.  `Array(count - 2)`
throws a `RangeError` (invalid array length) when `count - 2` is
negative. -/
def roleSlots (count : Nat) : Except JsErr (List Role) :=
  if count < 2 then .error .rangeError
  else .ok (.entry :: (List.replicate (count - 2) .relay ++ [.exit]))

/-- The per-slot selection loop of `getSuitableRelays`: filter the diverse
candidates to the required role and not already selected, fail the whole
call with `[]` when empty, otherwise pick from the top three candidates
with the `Math.random` draw for this slot. -/
def selectSlots (diverse : List DiscNode) (pick : Nat → Nat) :
    List Role → Nat → List DiscNode → Option (List DiscNode)
  | [], _, selected => some selected
  | requiredRole :: roles, slot, selected =>
      match diverse.filter
          (fun n => n.role = requiredRole && !(selected.contains n)) with
      | [] => none
      | s :: srest =>
          let top := (s :: srest).take 3
          let chosen := top.getD (pick slot % top.length) s
          selectSlots diverse pick roles (slot + 1) (selected ++ [chosen])

/-- Model of `getSuitableRelays(count)` (`circuitMonitor.js` registry,
lines
1000-1038): validated-capability filter over the discovered nodes, sort by
score, geographic-diversity filter, then the role-slot selection.  The
discovered list and the random draws are oracle parameters (network
awaits). -/
def getSuitableRelays (st : RegistryState) (allNodes : List DiscNode)
    (pick : Nat → Nat) (count : Nat) : Except JsErr (List DiscNode) := do
  let validated ← filterE (fun n =>
    match (mapLookup st n.nodeId).bind (·.capabilities) with
    | none => .ok false
    | some caps => evaluateNodeCapabilities (storedProfiles st) caps)
    allNodes
  let sorted := validated.mergeSort (fun a b => scoreOf st b ≤ scoreOf st a)
  let diverse := ensureGeographicDiversity sorted (fun _ => 0)
  let roles ← roleSlots count
  match selectSlots diverse pick roles 0 [] with
  | none => .ok []
  | some selected => .ok selected

/-- Model of `replaceNode(nodeId)` (`circuitMonitor.js` 132-143): requests
exactly
one replacement via `getSuitableRelays(1)`, throws when none is available,
and otherwise calls `circuitBuilder.replaceCircuitNode` — a method that no
builder in the repository defines, so that call would itself throw a
`TypeError`. -/
def replaceNode (st : RegistryState) (allNodes : List DiscNode)
    (pick : Nat → Nat) : Except JsErr Unit := do
  let replacement ← getSuitableRelays st allNodes pick 1
  if replacement.isEmpty then
    .error (.jsError "No suitable replacement nodes available")
  else
    .error .typeError

/-- Every RTT profile is within 50 ms of itself at every index. -/
theorem rttSimilar_self (l : List ℚ) : rttSimilar l l = true := by
  induction l with
  | nil => rfl
  | cons a as ih =>
      simp only [rttSimilar, ih, Bool.and_true, decide_eq_true_eq]
      norm_num

/-- A profile that occurs in the scanned list can never make the
similarity scan come back `false`: the scan hits the profile itself and
either reports similarity or throws. -/
theorem someSimilar_mem (p : Option (List ℚ))
    (ps : List (Option (List ℚ))) (hmem : p ∈ ps) :
    someSimilar p ps ≠ .ok false := by
  induction ps with
  | nil => cases hmem
  | cons q rest ih =>
      intro hfalse
      rcases List.mem_cons.mp hmem with hq | hrest
      · subst hq
        cases p with
        | none => simp [someSimilar, isRTTProfileSimilar, Bind.bind,
            Except.bind] at hfalse
        | some l =>
            simp [someSimilar, isRTTProfileSimilar, rttSimilar_self,
              Bind.bind, Except.bind] at hfalse
      · simp only [someSimilar, Bind.bind] at hfalse
        cases hsim : isRTTProfileSimilar q p with
        | error e => rw [hsim] at hfalse; cases hfalse
        | ok b =>
            rw [hsim] at hfalse
            cases b with
            | true => cases hfalse
            | false => exact ih hrest hfalse

/-- A capabilities record stored in the registry can never be judged
admissible by `evaluateNodeCapabilities`, because its own geolocation
profile is among the `existingProfiles` it is compared against. -/
theorem evaluateNodeCapabilities_stored_not_true (st : RegistryState)
    (id : Nat) (e : RegEntry) (caps : Capabilities)
    (hmem : (id, e) ∈ st.nodes) (hcaps : e.capabilities = some caps) :
    evaluateNodeCapabilities (storedProfiles st) caps ≠ .ok true := by
  intro htrue
  unfold evaluateNodeCapabilities at htrue
  by_cases h1 : (!caps.maxBandwidth.truthy || !caps.latency.truthy
      || !caps.uptime.truthy || !caps.reliability.truthy) = true
  · simp [h1] at htrue
  · simp only [h1, if_false, Bool.not_eq_true] at htrue
    by_cases h2 : (caps.maxBandwidth.jge (.num (50 * 1024))) = true
    · by_cases h3 : (caps.latency.jle (.num 1000)) = true
      · by_cases h4 : (caps.uptime.jge (.num (5 * 60 * 1000))) = true
        · by_cases h5 : (caps.reliability.jge (.num (8 / 10))) = true
          · simp only [h2, h3, h4, h5, Bool.not_true, if_false,
              Bool.false_eq_true, Bind.bind] at htrue
            cases hgeo : caps.geolocation with
            | none => rw [hgeo] at htrue
                      simp [hasGeographicDiversity, Bind.bind,
                        Except.bind] at htrue
            | some g =>
                have hprof : g.rttProfile ∈ storedProfiles st := by
                  refine List.mem_filterMap.mpr ⟨(id, e), hmem, ?_⟩
                  simp [hcaps, hgeo]
                rw [hgeo] at htrue
                simp only [hasGeographicDiversity] at htrue
                simp only [Bind.bind] at htrue
                cases hscan : someSimilar g.rttProfile (storedProfiles st)
                  with
                | error er => rw [hscan] at htrue; cases htrue
                | ok b =>
                    rw [hscan] at htrue
                    cases b with
                    | true => simp [Except.bind] at htrue
                    | false => exact someSimilar_mem _ _ hprof hscan
          · simp [h2, h3, h4, h5] at htrue
        · simp [h2, h3, h4] at htrue
      · simp [h2, h3] at htrue
    · simp [h2] at htrue

/-- A successful `filter` run judges every kept element `true`. -/
theorem filterE_ok_mem {p : α → Except JsErr Bool} {l r : List α}
    (hok : filterE p l = .ok r) (x : α) (hx : x ∈ r) : p x = .ok true := by
  induction l generalizing r with
  | nil =>
      simp only [filterE] at hok
      cases hok
      cases hx
  | cons y ys ih =>
      simp only [filterE, Bind.bind] at hok
      cases hb : p y with
      | error e => rw [hb] at hok; cases hok
      | ok b =>
          rw [hb] at hok
          simp only [Except.bind] at hok
          cases hrest : filterE p ys with
          | error e => rw [hrest] at hok; cases hok
          | ok rest =>
              rw [hrest] at hok
              simp only [Except.bind, Except.ok.injEq] at hok
              subst hok
              cases b with
              | true =>
                  rcases List.mem_cons.mp hx with hxy | hxr
                  · subst hxy; exact hb
                  · exact ih hrest hxr
              | false => exact ih hrest hx

/-- The validated-capability filter of `getSuitableRelays` keeps nothing:
whenever it completes without throwing, its result is empty. -/
theorem validated_empty (st : RegistryState) (allNodes : List DiscNode)
    (v : List DiscNode)
    (hok : filterE (fun n =>
      match (mapLookup st n.nodeId).bind (·.capabilities) with
      | none => .ok false
      | some caps => evaluateNodeCapabilities (storedProfiles st) caps)
      allNodes = .ok v) : v = [] := by
  rcases v with _ | ⟨x, xs⟩
  · rfl
  · exfalso
    have hx := filterE_ok_mem hok x (List.mem_cons_self x xs)
    cases hfind : (mapLookup st x.nodeId).bind (·.capabilities) with
    | none => rw [hfind] at hx; cases hx
    | some caps =>
        rw [hfind] at hx
        rcases Option.bind_eq_some.mp hfind with ⟨e, hlook, hcaps⟩
        rcases hfind2 : st.nodes.find? (fun q => q.1 = x.nodeId) with
          _ | ⟨id2, e2⟩
        · rw [mapLookup, hfind2] at hlook; cases hlook
        · have hmem := List.mem_of_find?_eq_some hfind2
          rw [mapLookup, hfind2] at hlook
          simp only [Option.map_some', Option.some.injEq] at hlook
          subst hlook
          exact evaluateNodeCapabilities_stored_not_true st id2 e2 caps
            hmem hcaps hx

/-- Theorem: `getSuitableRelays` can never produce a non-empty selection:
every call
either throws or returns `[]`, for every registry state, discovered-node
list, random draw and requested count. -/
theorem getSuitableRelays_never_nonempty (st : RegistryState)
    (allNodes : List DiscNode) (pick : Nat → Nat) (count : Nat) :
    (∃ e, getSuitableRelays st allNodes pick count = .error e) ∨
    getSuitableRelays st allNodes pick count = .ok [] := by
  cases hf : filterE (fun n =>
      match (mapLookup st n.nodeId).bind (·.capabilities) with
      | none => .ok false
      | some caps => evaluateNodeCapabilities (storedProfiles st) caps)
      allNodes with
  | error e =>
      left
      exact ⟨e, by simp [getSuitableRelays, Bind.bind, hf, Except.bind]⟩
  | ok v =>
      have hv := validated_empty st allNodes v hf
      subst hv
      by_cases hc : count < 2
      · left
        refine ⟨.rangeError, ?_⟩
        simp [getSuitableRelays, Bind.bind, hf, Except.bind, roleSlots, hc]
      · right
        simp [getSuitableRelays, Bind.bind, hf, Except.bind, roleSlots, hc,
          selectSlots, ensureGeographicDiversity, List.filter_nil]

/-- The three-peer registry of the C5 failing input: an entry, a relay and
an exit node, each admissible by the four thresholds, each announcing an
(empty) RTT profile. -/
def capsGeo : Capabilities :=
  ⟨.num 51200, .num 100, .num 300000, .num (9 / 10), some ⟨some []⟩⟩

/-- Registry state holding the three admissible peers. -/
def regThree : RegistryState :=
  ⟨[(1, ⟨.entry, .available, some capsGeo⟩),
    (2, ⟨.relay, .available, some capsGeo⟩),
    (3, ⟨.exit, .available, some capsGeo⟩)]⟩

/-- The matching discovered-node list. -/
def discThree : List DiscNode :=
  [⟨1, .entry, .available, some capsGeo⟩,
   ⟨2, .relay, .available, some capsGeo⟩,
   ⟨3, .exit, .available, some capsGeo⟩]

/-- C5 failing input evaluated.  Three peers, one per required role, all
meeting the four admission thresholds — yet `getSuitableRelays(3)` returns
`[]`: each stored node is rejected because `hasGeographicDiversity`
compares its RTT profile against the stored profile list, which contains
that very profile. -/
theorem getSuitableRelays_empty_on_admissible :
    specAdmissible capsGeo = true ∧
    getSuitableRelays regThree discThree (fun _ => 0) 3 = .ok [] := by
  constructor
  · norm_num [specAdmissible, capsGeo, JNum.jge, JNum.jle]
  · norm_num [getSuitableRelays, filterE, mapLookup, List.find?, capsGeo,
      regThree, discThree, evaluateNodeCapabilities, storedProfiles,
      hasGeographicDiversity, someSimilar, isRTTProfileSimilar, rttSimilar,
      JNum.truthy, JNum.jge, JNum.jle, Bind.bind, Except.bind, roleSlots,
      selectSlots, meetsReliabilityThreshold, ensureGeographicDiversity,
      List.filter_nil]

/-- C10.  For every `count ≤ 1`, `getSuitableRelays(count)` throws before
selecting any node (`Array(count - 2)` is an invalid array length), and
consequently `replaceNode` — which requests exactly one replacement via
`getSuitableRelays(1)` — always throws, so single-hop replacement can
never succeed. -/
theorem getSuitableRelays_low_count_throws (st : RegistryState)
    (allNodes : List DiscNode) (pick : Nat → Nat) (count : Nat)
    (hcount : count ≤ 1) :
    (∃ e, getSuitableRelays st allNodes pick count = .error e) ∧
    (∃ e, replaceNode st allNodes pick = .error e) := by
  have main : ∀ c : Nat, c ≤ 1 →
      ∃ e, getSuitableRelays st allNodes pick c = .error e := by
    intro c hc
    cases hf : filterE (fun n =>
        match (mapLookup st n.nodeId).bind (·.capabilities) with
        | none => .ok false
        | some caps => evaluateNodeCapabilities (storedProfiles st) caps)
        allNodes with
    | error e =>
        exact ⟨e, by simp [getSuitableRelays, Bind.bind, hf, Except.bind]⟩
    | ok v =>
        have hv := validated_empty st allNodes v hf
        subst hv
        refine ⟨.rangeError, ?_⟩
        simp [getSuitableRelays, Bind.bind, hf, Except.bind, roleSlots,
          show c < 2 by omega]
  refine ⟨main count hcount, ?_⟩
  rcases main 1 (by omega) with ⟨e, he⟩
  exact ⟨e, by simp [replaceNode, Bind.bind, he, Except.bind]⟩

/-- Witness for C10 at the empty registry and `count = 1`. -/
theorem getSuitableRelays_low_count_throws_witness :
    (∃ e, getSuitableRelays ⟨[]⟩ [] (fun _ => 0) 1 = .error e) ∧
    (∃ e, replaceNode ⟨[]⟩ [] (fun _ => 0) = .error e) :=
  getSuitableRelays_low_count_throws ⟨[]⟩ [] (fun _ => 0) 1 (by decide)

/-! ## Circuit builder (`circuitBuilder.js`, and the two-node variant of
the same class shipped in the repository) -/

/-- The `CircuitStatus` values (`circuitBuilder.js` 9-14). -/
inductive CircuitStatus where
  | building
  | ready
  | failed
  | closed
  deriving DecidableEq, Repr

/-- A relay descriptor as consumed by `buildCircuit` / `establishHop`:
`{ nodeId, publicKey }`. -/
structure Relay where
  nodeId : Nat
  publicKey : Nat
  deriving DecidableEq, Repr

instance : Inhabited Relay := ⟨⟨0, 0⟩⟩

/-- The hop record returned by `establishHop`:
`{ nodeId, hopIndex, publicKey }`. -/
structure Hop where
  nodeId : Nat
  hopIndex : Nat
  publicKey : Nat
  deriving DecidableEq, Repr

/-- A stored connection (`circuit.connections` element); `isOpen` records
whether its data channel and peer connection are still open (only
`closeCircuit` ever closes them). -/
structure Conn where
  nodeId : Nat
  isOpen : Bool
  deriving DecidableEq, Repr

/-- A circuit table entry (`this.circuits` value):
`{ status, hops, connections, keys }`. -/
structure Circuit where
  status : CircuitStatus
  hops : List Hop
  connections : List Conn
  keys : List Nat
  deriving DecidableEq, Repr

/-- The hop-establishment loop of `buildCircuit`.  `establishHop` pushes the
connection record into `circuit.connections` before awaiting the data
channel; the peer-link transport is external, so the await's outcome at hop
index `i` is the oracle `linkOk i`.  On success the hop record is pushed;
on failure the loop aborts with the connections opened so far (none of them
closed). -/
def buildHops (linkOk : Nat → Bool) :
    List (Nat × Relay) → List Hop × List Conn × Bool
  | [] => ([], [], true)
  | (i, node) :: rest =>
      let conn : Conn := ⟨node.nodeId, true⟩
      if linkOk i then
        let (hs, cs, ok) := buildHops linkOk rest
        (⟨node.nodeId, i, node.publicKey⟩ :: hs, conn :: cs, ok)
      else
        ([], [conn], false)

/-- The `MIN_HOPS` constant of `circuitBuilder.js` (line 21). -/
def MIN_HOPS : Nat := 3

/-- Model of `CircuitBuilder.buildCircuit(numHops)` (`circuitBuilder.js`
29-68):
coerce `numHops` up to `MIN_HOPS = 3`, fail when the registry supplies
fewer relays than hops (before generating any key or opening any link),
generate one ephemeral key pair per hop, then establish the hops
sequentially.  On any failure the circuit is marked `FAILED` and the error
is rethrown — nothing is closed or zeroed.  The relay list (the registry's
reply) and the link outcomes are oracle parameters. -/
def buildCircuit (relays : List Relay) (linkOk : Nat → Bool)
    (numHops : Nat) : Circuit × Except JsErr CircuitStatus :=
  let n := if numHops < MIN_HOPS then MIN_HOPS else numHops
  if relays.length < n then
    (⟨.failed, [], [], []⟩,
      .error (.jsError "Insufficient relay nodes available"))
  else
    let keys := List.range n
    let built := buildHops linkOk (relays.take n).enum
    if built.2.2 then (⟨.ready, built.1, built.2.1, keys⟩, .ok .ready)
    else (⟨.failed, built.1, built.2.1, keys⟩,
      .error (.jsError "Connection timeout"))

/-- Model of `CircuitBuilder.buildCircuit(numHops)` of the two-node variant
(`src/unnamed/part_008`, lines 22-98): `MIN_HOPS = 2`, a two-hop circuit
requires only one relay, the hop loop indexes `relays[i % relays.length]`,
and an insufficient relay pool leaves the circuit `BUILDING` instead of
failing. -/
def buildCircuitV2 (relays : List Relay) (linkOk : Nat → Bool)
    (numHops : Nat) : Circuit × Except JsErr CircuitStatus :=
  let n := if numHops < 2 then 2 else numHops
  let requiredNodes := if n = 2 then 1 else n
  if relays.length < requiredNodes then
    (⟨.building, [], [], []⟩, .ok .building)
  else
    let keys := List.range n
    let seq := (List.range n).map
      (fun i => (i, relays.getD (i % relays.length) default))
    let built := buildHops linkOk seq
    if built.2.2 then (⟨.ready, built.1, built.2.1, keys⟩, .ok .ready)
    else (⟨.failed, built.1, built.2.1, keys⟩,
      .error (.jsError "Connection timeout"))

/-- A fully successful hop loop yields one hop per requested slot, in slot
order. -/
theorem buildHops_ok_map (linkOk : Nat → Bool)
    (pairs : List (Nat × Relay)) (hs : List Hop) (cs : List Conn)
    (hok : buildHops linkOk pairs = (hs, cs, true)) :
    hs.map Hop.nodeId = pairs.map (fun p => p.2.nodeId) := by
  induction pairs generalizing hs cs with
  | nil =>
      simp only [buildHops, Prod.mk.injEq] at hok
      simp [← hok.1]
  | cons p rest ih =>
      rcases p with ⟨i, node⟩
      simp only [buildHops] at hok
      by_cases hl : linkOk i = true
      · rw [if_pos hl] at hok
        cases hrec : buildHops linkOk rest with
        | mk hs' rest' =>
            cases rest' with
            | mk cs' ok' =>
                rw [hrec] at hok
                simp only [Prod.mk.injEq] at hok
                rcases hok with ⟨h1, h2, h3⟩
                subst h1 h3
                simpa [List.map_cons] using ih hs' cs' hrec
      · rw [if_neg hl] at hok
        simp only [Prod.mk.injEq] at hok
        exact absurd hok.2.2 (by simp)

/-- Theorem: `buildCircuit` never closes a connection it has opened,
whatever the
outcome. -/
theorem buildHops_conns_open (linkOk : Nat → Bool)
    (pairs : List (Nat × Relay)) :
    ∀ conn ∈ (buildHops linkOk pairs).2.1, conn.isOpen = true := by
  induction pairs with
  | nil => intro conn h; simp [buildHops] at h
  | cons p rest ih =>
      rcases p with ⟨i, node⟩
      intro conn h
      simp only [buildHops] at h
      by_cases hl : linkOk i = true
      · rw [if_pos hl] at h
        rcases List.mem_cons.mp (by
            simpa using h) with hc | hc
        · subst hc; rfl
        · exact ih conn hc
      · rw [if_neg hl] at h
        simp only [List.mem_singleton] at h
        subst h; rfl

/-- A `READY` build keeps one hop per slot: the hop peer IDs are exactly
the node IDs of the first `n` supplied relays. -/
theorem buildCircuit_ready_hops (relays : List Relay) (linkOk : Nat → Bool)
    (numHops : Nat)
    (hready : (buildCircuit relays linkOk numHops).1.status = .ready) :
    (buildCircuit relays linkOk numHops).1.hops.map Hop.nodeId =
      (relays.take (if numHops < MIN_HOPS then MIN_HOPS else numHops)).map
        Relay.nodeId := by
  unfold buildCircuit at hready ⊢
  by_cases hlen :
      relays.length < (if numHops < MIN_HOPS then MIN_HOPS else numHops)
  · rw [if_pos hlen] at hready
    simp at hready
  · rw [if_neg hlen] at hready ⊢
    by_cases hok : (buildHops linkOk (List.enum (List.take
        (if numHops < MIN_HOPS then MIN_HOPS else numHops) relays))).2.2
        = true
    · rw [if_pos hok]
      have hb : buildHops linkOk (List.enum (List.take
          (if numHops < MIN_HOPS then MIN_HOPS else numHops) relays)) =
          ((buildHops linkOk (List.enum (List.take
            (if numHops < MIN_HOPS then MIN_HOPS else numHops) relays))).1,
           (buildHops linkOk (List.enum (List.take
            (if numHops < MIN_HOPS then MIN_HOPS else numHops)
              relays))).2.1, true) := by
        rw [← hok]
      have hmap := buildHops_ok_map linkOk _ _ _ hb
      refine hmap.trans ?_
      rw [show (fun p : Nat × Relay => p.2.nodeId) =
        (Relay.nodeId ∘ Prod.snd) from rfl, ← List.map_map,
        List.enum_map_snd]
    · rw [if_neg hok] at hready
      simp at hready

/-- A `READY` build implies the relay pool was large enough. -/
theorem buildCircuit_ready_enough (relays : List Relay)
    (linkOk : Nat → Bool) (numHops : Nat)
    (hready : (buildCircuit relays linkOk numHops).1.status = .ready) :
    ¬ relays.length <
      (if numHops < MIN_HOPS then MIN_HOPS else numHops) := by
  intro hlen
  unfold buildCircuit at hready
  rw [if_pos hlen] at hready
  simp at hready

/-- C2 (amended).  A circuit that `circuitBuilder.js`'s `buildCircuit`
completes with status `READY` has one hop per requested slot, drawn in
order from the supplied relay list; its hop peer IDs are pairwise distinct
whenever the supplied relay list has pairwise distinct node IDs (which a
`Map`-backed registry reply has). -/
theorem buildCircuit_ready_nodup (relays : List Relay)
    (linkOk : Nat → Bool) (numHops : Nat)
    (hready : (buildCircuit relays linkOk numHops).1.status = .ready)
    (hnodup : (relays.map Relay.nodeId).Nodup) :
    ((buildCircuit relays linkOk numHops).1.hops.map Hop.nodeId).Nodup := by
  rw [buildCircuit_ready_hops relays linkOk numHops hready]
  exact hnodup.sublist ((List.take_sublist _ _).map Relay.nodeId)

/-- Witness for C2 (amended): a three-relay build with all links opening
yields pairwise distinct hop peer IDs. -/
theorem buildCircuit_ready_nodup_witness :
    ((buildCircuit [⟨1, 10⟩, ⟨2, 20⟩, ⟨3, 30⟩] (fun _ => true) 3).1.hops.map
      Hop.nodeId).Nodup :=
  buildCircuit_ready_nodup [⟨1, 10⟩, ⟨2, 20⟩, ⟨3, 30⟩] (fun _ => true) 3
    (by decide) (by decide)

/-- C2 counterexample.  The two-node builder variant (`part_008`) reuses
`relays[i % relays.length]`: with a single relay and `numHops = 2` it
completes with status `READY` while both hops carry the same peer ID, so a
`Ready` circuit need not have `|hops|` distinct peer IDs. -/
theorem buildCircuitV2_ready_duplicate :
    (buildCircuitV2 [⟨7, 70⟩] (fun _ => true) 2).1.status = .ready ∧
    ((buildCircuitV2 [⟨7, 70⟩] (fun _ => true) 2).1.hops.map Hop.nodeId)
      = [7, 7] ∧
    ¬ ((buildCircuitV2 [⟨7, 70⟩] (fun _ => true) 2).1.hops.map
      Hop.nodeId).Nodup := by
  decide

/-- C3 (amended).  A build that fails for insufficient relays opens zero
peer links and generates no circuit keys; beyond that, `buildCircuit`
never closes a connection it has opened — hop-establishment failure marks
the circuit `FAILED` and rethrows with every opened link still open and
the generated keys still present. -/
theorem buildCircuit_no_rollback (relays : List Relay)
    (linkOk : Nat → Bool) (numHops : Nat) :
    (relays.length < (if numHops < MIN_HOPS then MIN_HOPS else numHops) →
      (buildCircuit relays linkOk numHops).1.connections = [] ∧
      (buildCircuit relays linkOk numHops).1.keys = [] ∧
      (buildCircuit relays linkOk numHops).1.status = .failed) ∧
    (∀ conn ∈ (buildCircuit relays linkOk numHops).1.connections,
      conn.isOpen = true) := by
  constructor
  · intro hlen
    simp [buildCircuit, if_pos hlen]
  · intro conn hmem
    unfold buildCircuit at hmem
    by_cases hlen :
        relays.length < (if numHops < MIN_HOPS then MIN_HOPS else numHops)
    · rw [if_pos hlen] at hmem
      simp at hmem
    · rw [if_neg hlen] at hmem
      by_cases hok : (buildHops linkOk (List.enum (List.take
          (if numHops < MIN_HOPS then MIN_HOPS else numHops)
          relays))).2.2 = true
      · rw [if_pos hok] at hmem
        exact buildHops_conns_open linkOk _ conn (by simpa using hmem)
      · rw [if_neg hok] at hmem
        exact buildHops_conns_open linkOk _ conn (by simpa using hmem)

/-- Witness for C3 (amended): a build over an empty relay pool fails with
zero opened links and zero keys. -/
theorem buildCircuit_no_rollback_witness :
    (buildCircuit [] (fun _ => true) 3).1.connections = [] ∧
    (buildCircuit [] (fun _ => true) 3).1.keys = [] ∧
    (buildCircuit [] (fun _ => true) 3).1.status = .failed :=
  (buildCircuit_no_rollback [] (fun _ => true) 3).1 (by decide)

/-- C3 counterexample.  A three-hop build whose second link never opens
returns failed — yet the circuit retains both opened connections, neither
of them closed, and its three generated ephemeral keys are not zeroed:
the claimed rollback does not happen. -/
theorem buildCircuit_failed_leaves_links_open :
    (buildCircuit [⟨1, 10⟩, ⟨2, 20⟩, ⟨3, 30⟩] (fun i => i == 0) 3).1.status
      = .failed ∧
    (buildCircuit [⟨1, 10⟩, ⟨2, 20⟩, ⟨3, 30⟩] (fun i => i == 0)
      3).1.connections = [⟨1, true⟩, ⟨2, true⟩] ∧
    (∀ conn ∈ (buildCircuit [⟨1, 10⟩, ⟨2, 20⟩, ⟨3, 30⟩] (fun i => i == 0)
      3).1.connections, conn.isOpen = true) ∧
    (buildCircuit [⟨1, 10⟩, ⟨2, 20⟩, ⟨3, 30⟩] (fun i => i == 0) 3).1.keys
      = [0, 1, 2] := by
  decide

/-- C7 (amended).  `circuitBuilder.js`'s `buildCircuit(N)` with
`N < MIN_HOPS = 3` behaves exactly as `buildCircuit(3)` and any `READY`
circuit it produces has exactly 3 hops.  (The two-node builder variant
violates the 3-hop floor, see its counterexample.) -/
theorem buildCircuit_coerces_min_hops (relays : List Relay)
    (linkOk : Nat → Bool) (numHops : Nat) (h : numHops < MIN_HOPS) :
    buildCircuit relays linkOk numHops =
      buildCircuit relays linkOk MIN_HOPS ∧
    ((buildCircuit relays linkOk numHops).1.status = .ready →
      (buildCircuit relays linkOk numHops).1.hops.length = MIN_HOPS) := by
  have hif : (if MIN_HOPS < MIN_HOPS then MIN_HOPS else MIN_HOPS)
      = MIN_HOPS := by simp
  have hcoerce : buildCircuit relays linkOk numHops =
      buildCircuit relays linkOk MIN_HOPS := by
    unfold buildCircuit
    rw [if_pos h, hif]
  refine ⟨hcoerce, ?_⟩
  intro hready
  have hlen := buildCircuit_ready_enough relays linkOk numHops hready
  rw [if_pos h] at hlen
  have hmap := buildCircuit_ready_hops relays linkOk numHops hready
  have hlenmap := congrArg List.length hmap
  simp only [List.length_map, List.length_take, if_pos h] at hlenmap
  rw [hlenmap]
  omega

/-- Witness for C7 (amended): `buildCircuit(2)` and `buildCircuit(3)` are
the same call on a five-relay pool, and the ready circuit has 3 hops. -/
theorem buildCircuit_coerces_min_hops_witness :
    buildCircuit [⟨1, 1⟩, ⟨2, 2⟩, ⟨3, 3⟩, ⟨4, 4⟩, ⟨5, 5⟩] (fun _ => true) 2
      = buildCircuit [⟨1, 1⟩, ⟨2, 2⟩, ⟨3, 3⟩, ⟨4, 4⟩, ⟨5, 5⟩]
        (fun _ => true) 3 ∧
    ((buildCircuit [⟨1, 1⟩, ⟨2, 2⟩, ⟨3, 3⟩, ⟨4, 4⟩, ⟨5, 5⟩] (fun _ => true)
      2).1.status = .ready →
      (buildCircuit [⟨1, 1⟩, ⟨2, 2⟩, ⟨3, 3⟩, ⟨4, 4⟩, ⟨5, 5⟩] (fun _ => true)
        2).1.hops.length = MIN_HOPS) :=
  buildCircuit_coerces_min_hops [⟨1, 1⟩, ⟨2, 2⟩, ⟨3, 3⟩, ⟨4, 4⟩, ⟨5, 5⟩]
    (fun _ => true) 2 (by decide)

/-- C7 counterexample.  The repository also ships a builder with
`MIN_HOPS = 2` (`part_008`): `buildCircuit(1)` there is coerced to 2, not
3, and completes `READY` with a 2-hop circuit, so a circuit with fewer
than 3 hops can be built. -/
theorem buildCircuitV2_builds_two_hops :
    (buildCircuitV2 [⟨7, 70⟩] (fun _ => true) 1).1.status = .ready ∧
    (buildCircuitV2 [⟨7, 70⟩] (fun _ => true) 1).1.hops.length = 2 := by
  decide

/-! ## Circuit monitor (`circuitMonitor.js`, class `CircuitMonitor`) -/

/-- The two recovery paths of `handleUnhealthyNodes`. -/
inductive MonitorPath where
  | repairing
  | rebuilding
  deriving DecidableEq, Repr

/-- The branch condition of `handleUnhealthyNodes` (`circuitMonitor.js`
97-125): rebuild the whole circuit when
`unhealthyNodes.length > Math.floor(circuitNodes.length / 3)`, otherwise
replace the individual nodes. -/
def handleUnhealthyPath (circuitNodes unhealthyNodes : List Nat) :
    MonitorPath :=
  if circuitNodes.length / 3 < unhealthyNodes.length then .rebuilding
  else .repairing

/-- The unhealthy-node collection of `checkCircuitHealth`
(`circuitMonitor.js` 61-90): for each hop, push its ID if the peer is
missing or not `AVAILABLE`, and push it again if `validateNode` (a network
await, oracle `validOk`) reports it invalid — a doubly-degraded hop is
pushed twice. -/
def collectUnhealthy (nodes : List DiscNode) (circuitNodes : List Nat)
    (validOk : Nat → Bool) : List Nat :=
  circuitNodes.flatMap (fun nodeId =>
    (match nodes.find? (fun n => n.nodeId = nodeId) with
     | none => [nodeId]
     | some n => if n.status ≠ .available then [nodeId] else []) ++
    (if validOk nodeId then [] else [nodeId]))

/-- The decision a health-check tick reaches: `none` when every hop is
healthy (a `READY` emission), otherwise the recovery path chosen by
`handleUnhealthyNodes` for the collected list. -/
def checkHealthPath (nodes : List DiscNode) (circuitNodes : List Nat)
    (validOk : Nat → Bool) : Option MonitorPath :=
  let unhealthy := collectUnhealthy nodes circuitNodes validOk
  if unhealthy.isEmpty then none
  else some (handleUnhealthyPath circuitNodes unhealthy)

/-- C6 (amended).  The monitor branches on the length of the collected
unhealthy-node list: a list of length `⌊N/3⌋` takes the `Repairing` path
and a list of length `⌊N/3⌋ + 1` or more takes the `Rebuilding` path.
(The list may name one degraded hop twice, see the counterexample.) -/
theorem handleUnhealthyPath_thresholds (circuitNodes unhealthyNodes :
    List Nat) :
    (unhealthyNodes.length = circuitNodes.length / 3 →
      handleUnhealthyPath circuitNodes unhealthyNodes = .repairing) ∧
    (circuitNodes.length / 3 + 1 ≤ unhealthyNodes.length →
      handleUnhealthyPath circuitNodes unhealthyNodes = .rebuilding) := by
  constructor
  · intro h
    rw [handleUnhealthyPath, if_neg (by omega)]
  · intro h
    rw [handleUnhealthyPath, if_pos (by omega)]

/-- Witness for C6 (amended): on a 3-hop circuit, one collected unhealthy
entry means `Repairing`, two mean `Rebuilding`. -/
theorem handleUnhealthyPath_thresholds_witness :
    handleUnhealthyPath [10, 20, 30] [10] = .repairing ∧
    handleUnhealthyPath [10, 20, 30] [10, 20] = .rebuilding :=
  ⟨(handleUnhealthyPath_thresholds [10, 20, 30] [10]).1 (by decide),
   (handleUnhealthyPath_thresholds [10, 20, 30] [10, 20]).2 (by decide)⟩

/-- C6 counterexample.  On a 3-hop circuit with exactly one unhealthy hop
(`⌊3/3⌋ = 1`, so the claim demands `Repairing`), a hop that is both
missing from the peer view and fails validation is collected twice, and
the monitor takes the `Rebuilding` path. -/
theorem checkHealth_double_count :
    collectUnhealthy
      [⟨20, .relay, .available, none⟩, ⟨30, .exit, .available, none⟩]
      [10, 20, 30] (fun id => !(id == 10)) = [10, 10] ∧
    (collectUnhealthy
      [⟨20, .relay, .available, none⟩, ⟨30, .exit, .available, none⟩]
      [10, 20, 30] (fun id => !(id == 10))).dedup.length = 1 ∧
    ([10, 20, 30] : List Nat).length / 3 = 1 ∧
    checkHealthPath
      [⟨20, .relay, .available, none⟩, ⟨30, .exit, .available, none⟩]
      [10, 20, 30] (fun id => !(id == 10)) = some .rebuilding := by
  decide

/-! ## Circuit health metrics (`CircuitMonitor.getHealthMetrics`,
`circuitMonitor.js` 149-174) -/

/-- Modelled from the spec: the per-peer capability record returned by the
registry's `getNodeCapabilities` — a method no registry in the repository
implements; §3 of the spec gives peers `capabilities` with
`latency_ms` and `max_bandwidth_bps` fields, which is what
`getHealthMetrics` reads. -/
structure HMCaps where
  latency : ℚ
  maxBandwidth : ℚ
  deriving DecidableEq, Repr

/-- The `Math.min` chain seeded with `Infinity` (`none`). -/
def jsMin (acc : Option ℚ) (q : ℚ) : Option ℚ :=
  some (match acc with
    | none => q
    | some b => min b q)

/-- The metrics record of `getHealthMetrics`; `bandwidth = none` is the
initial `Infinity`. -/
structure HealthMetrics where
  totalNodes : Nat
  healthyNodes : Nat
  averageLatency : ℚ
  bandwidth : Option ℚ
  deriving DecidableEq, Repr

/-- One iteration of the `getHealthMetrics` loop: a hop whose peer is
found and `AVAILABLE` bumps the healthy count, accumulates its latency and
lowers the bandwidth minimum; any other hop leaves the accumulator
alone. -/
def hmStep (nodes : List DiscNode) (caps : Nat → HMCaps)
    (acc : Nat × ℚ × Option ℚ) (nodeId : Nat) : Nat × ℚ × Option ℚ :=
  match nodes.find? (fun n => n.nodeId = nodeId) with
  | some n =>
      if n.status = .available then
        (acc.1 + 1, acc.2.1 + (caps nodeId).latency,
          jsMin acc.2.2 (caps nodeId).maxBandwidth)
      else acc
  | none => acc

/-- Model of `CircuitMonitor.getHealthMetrics()` (`circuitMonitor.js`
149-174): the
loop over the circuit's hops followed by
`averageLatency = totalLatency / circuitNodes.length` — the divisor is the
total hop count, not the healthy count. -/
def getHealthMetrics (nodes : List DiscNode) (circuitNodes : List Nat)
    (caps : Nat → HMCaps) : HealthMetrics :=
  let r := circuitNodes.foldl (hmStep nodes caps) (0, 0, none)
  ⟨circuitNodes.length, r.1, r.2.1 / (circuitNodes.length : ℚ), r.2.2⟩

/-- The healthy-hop classification of the loop: peer found and
`AVAILABLE`. -/
def isHealthy (nodes : List DiscNode) (nodeId : Nat) : Bool :=
  match nodes.find? (fun n => n.nodeId = nodeId) with
  | some n => n.status = .available
  | none => false

/-- The healthy hops of a circuit, in hop order. -/
def healthyIds (nodes : List DiscNode) (circuitNodes : List Nat) :
    List Nat :=
  circuitNodes.filter (isHealthy nodes)

/-- Modelled from the spec: `averageLatency` as §4.5 words it — the
arithmetic mean of latency taken over the healthy hops only. -/
def specAverageLatency (nodes : List DiscNode) (circuitNodes : List Nat)
    (caps : Nat → HMCaps) : ℚ :=
  ((healthyIds nodes circuitNodes).map (fun id => (caps id).latency)).sum
    / ((healthyIds nodes circuitNodes).length : ℚ)

/-- The `getHealthMetrics` fold, characterised against the healthy-hop
list. -/
theorem hmFold_spec (nodes : List DiscNode) (caps : Nat → HMCaps)
    (circuitNodes : List Nat) (acc : Nat × ℚ × Option ℚ) :
    circuitNodes.foldl (hmStep nodes caps) acc =
      (acc.1 + (healthyIds nodes circuitNodes).length,
       acc.2.1 + ((healthyIds nodes circuitNodes).map
         (fun id => (caps id).latency)).sum,
       ((healthyIds nodes circuitNodes).map
         (fun id => (caps id).maxBandwidth)).foldl jsMin acc.2.2) := by
  induction circuitNodes generalizing acc with
  | nil => simp [healthyIds]
  | cons id rest ih =>
      by_cases hh : isHealthy nodes id = true
      · have hstep : hmStep nodes caps acc id =
            (acc.1 + 1, acc.2.1 + (caps id).latency,
              jsMin acc.2.2 (caps id).maxBandwidth) := by
          unfold isHealthy at hh
          unfold hmStep
          cases hfind : nodes.find? (fun n => n.nodeId = id) with
          | none => rw [hfind] at hh; cases hh
          | some n =>
              rw [hfind] at hh
              simp only [decide_eq_true_eq] at hh
              simp [hh]
        simp only [List.foldl_cons, hstep, ih]
        have hfilter : healthyIds nodes (id :: rest) =
            id :: healthyIds nodes rest := by
          simp [healthyIds, List.filter_cons, hh]
        rw [hfilter]
        simp only [List.length_cons, List.map_cons, List.sum_cons,
          List.foldl_cons]
        refine congrArg₂ _ (by omega) (congrArg₂ _ (by ring) rfl)
      · have hstep : hmStep nodes caps acc id = acc := by
          unfold isHealthy at hh
          unfold hmStep
          cases hfind : nodes.find? (fun n => n.nodeId = id) with
          | none => rfl
          | some n =>
              rw [hfind] at hh
              simp only [decide_eq_true_eq] at hh
              simp [hh]
        have hfilter : healthyIds nodes (id :: rest) =
            healthyIds nodes rest := by
          simp [healthyIds, List.filter_cons, hh]
        simp only [List.foldl_cons, hstep, ih, hfilter]

/-- C8 (amended).  `getHealthMetrics` reports the hop count, the number of
healthy hops, the minimum `maxBandwidth` over the healthy hops
(`Infinity` when none is healthy) — but its `averageLatency` is the sum of
the healthy hops' latencies divided by the TOTAL hop count, not by the
healthy count. -/
theorem getHealthMetrics_spec (nodes : List DiscNode)
    (circuitNodes : List Nat) (caps : Nat → HMCaps)
    (hne : circuitNodes ≠ []) :
    (getHealthMetrics nodes circuitNodes caps).totalNodes
      = circuitNodes.length ∧
    (getHealthMetrics nodes circuitNodes caps).healthyNodes
      = (healthyIds nodes circuitNodes).length ∧
    (getHealthMetrics nodes circuitNodes caps).averageLatency
      = ((healthyIds nodes circuitNodes).map
          (fun id => (caps id).latency)).sum / (circuitNodes.length : ℚ) ∧
    (getHealthMetrics nodes circuitNodes caps).bandwidth
      = ((healthyIds nodes circuitNodes).map
          (fun id => (caps id).maxBandwidth)).foldl jsMin none := by
  unfold getHealthMetrics
  rw [hmFold_spec nodes caps circuitNodes (0, 0, none)]
  simp

/-- Witness for C8 (amended), on a two-hop circuit with one healthy
hop. -/
theorem getHealthMetrics_spec_witness :
    (getHealthMetrics [⟨0, .entry, .available, none⟩] [0, 1]
      (fun _ => ⟨100, 5000⟩)).totalNodes = 2 ∧
    (getHealthMetrics [⟨0, .entry, .available, none⟩] [0, 1]
      (fun _ => ⟨100, 5000⟩)).healthyNodes
      = (healthyIds [⟨0, .entry, .available, none⟩] [0, 1]).length := by
  have h := getHealthMetrics_spec [⟨0, .entry, .available, none⟩] [0, 1]
    (fun _ => ⟨100, 5000⟩) (by decide)
  exact ⟨h.1, h.2.1⟩

/-- C8 counterexample.  Two hops, one healthy with latency 100 ms: the
spec's mean over healthy hops is 100, but `getHealthMetrics` divides by
the total hop count and reports 50. -/
theorem getHealthMetrics_divides_by_total :
    (getHealthMetrics [⟨0, .entry, .available, none⟩] [0, 1]
      (fun _ => ⟨100, 5000⟩)).averageLatency = 50 ∧
    specAverageLatency [⟨0, .entry, .available, none⟩] [0, 1]
      (fun _ => ⟨100, 5000⟩) = 100 ∧
    (50 : ℚ) ≠ 100 := by
  refine ⟨?_, ?_, by norm_num⟩
  · norm_num [getHealthMetrics, hmStep, jsMin, List.find?]
  · norm_num [specAverageLatency, healthyIds, isHealthy, List.find?,
      List.filter]

/-! ## Circuit channel (`circuitChannel.js`, class `CircuitChannel`) -/

/-- The `this.readyState` values of a `CircuitChannel`. -/
inductive ChannelReadyState where
  | connecting
  | opened
  | closed
  deriving DecidableEq, Repr

/-- The observable state of a `CircuitChannel`: its ready state, whether
`circuitBuilder.closeCircuit` has been invoked on its circuit (closing
every peer link and deleting the table entry), and how many times the
`onclose` callback has fired. -/
structure ChannelState where
  readyState : ChannelReadyState
  circuitClosed : Bool
  closeEvents : Nat
  deriving DecidableEq, Repr

/-- Model of `CircuitChannel.close()` (`circuitChannel.js` 72-81): a no-op
when the
channel is already closed; otherwise it marks the channel closed, closes
the underlying circuit via `circuitBuilder.closeCircuit`, and fires
`onclose` once. -/
def closeChannel (s : ChannelState) : ChannelState :=
  if s.readyState = .closed then s
  else ⟨.closed, true, s.closeEvents + 1⟩

/-- C9.  Closing is idempotent: `close (close c) = close c`, the channel
ends closed, and — starting from any not-yet-closed channel — the first
call closes the underlying circuit and the close callback fires exactly
once across both calls. -/
theorem closeChannel_idempotent (s : ChannelState) :
    closeChannel (closeChannel s) = closeChannel s ∧
    (closeChannel s).readyState = .closed ∧
    (s.readyState ≠ .closed →
      (closeChannel s).circuitClosed = true ∧
      (closeChannel s).closeEvents = s.closeEvents + 1 ∧
      (closeChannel (closeChannel s)).closeEvents = s.closeEvents + 1) := by
  by_cases h : s.readyState = .closed
  · simp [closeChannel, h]
  · simp [closeChannel, h]

/-- Witness for C9: a freshly opened channel, closed twice. -/
theorem closeChannel_idempotent_witness :
    closeChannel (closeChannel ⟨.opened, false, 0⟩) =
      closeChannel ⟨.opened, false, 0⟩ ∧
    (closeChannel (⟨.opened, false, 0⟩ : ChannelState)).circuitClosed
      = true ∧
    ChannelState.closeEvents
      (closeChannel (closeChannel ⟨.opened, false, 0⟩)) = 1 := by
  have h := closeChannel_idempotent ⟨.opened, false, 0⟩
  exact ⟨h.1, (h.2.2 (by decide)).1, (h.2.2 (by decide)).2.2⟩

end Onion
